import Mathlib

/-!
Verification of the CHIP-9 interpreter core (a CHIP-8 virtual machine written
in Rust: src/memory.rs, src/cpu.rs, src/machine.rs).

The Rust code is shallowly embedded: machine integers (u8 / u16 / usize)
become Nat with explicit wrap-around (% 256, % 65536) exactly where the
source performs wrapping arithmetic; fixed-size arrays become total
functions Nat → Nat together with explicit bounds checks at each indexing
site that can panic in Rust (an out-of-bounds array index is modelled as
Option.none).  Arithmetic overflow of the plain (non-Wrapping) u16 addition
in call is modelled as wrapping, matching release-mode semantics and the
Wrapping types used everywhere else in the source.
-/

namespace Chip9

/-- MEMORY_SIZE from memory.rs: 1024 * 8 bytes. -/
def MEMORY_SIZE : Nat := 1024 * 8

/-- SCREEN_WIDTH from memory.rs. -/
def SCREEN_WIDTH : Nat := 64

/-- SCREEN_HEIGHT from memory.rs. -/
def SCREEN_HEIGHT : Nat := 32

/-- SCREEN_SIZE from memory.rs. -/
def SCREEN_SIZE : Nat := SCREEN_WIDTH * SCREEN_HEIGHT

/-- SPRITE_MEM from memory.rs: the 16 built-in 5-byte font glyphs. -/
def SPRITE_MEM : List Nat :=
  [0xF0, 0x90, 0x90, 0x90, 0xF0, 0x20, 0x60, 0x20, 0x20, 0x70,
   0xF0, 0x10, 0xF0, 0x80, 0xF0, 0xF0, 0x10, 0xF0, 0x10, 0xF0,
   0x90, 0x90, 0xF0, 0x10, 0x10, 0xF0, 0x80, 0xF0, 0x10, 0xF0,
   0xF0, 0x80, 0xF0, 0x90, 0xF0, 0xF0, 0x10, 0x20, 0x40, 0x40,
   0xF0, 0x90, 0xF0, 0x90, 0xF0, 0xF0, 0x90, 0xF0, 0x10, 0xF0,
   0xF0, 0x90, 0xF0, 0x90, 0x90, 0xE0, 0x90, 0xE0, 0x90, 0xE0,
   0xF0, 0x80, 0x80, 0x80, 0xF0, 0xE0, 0x90, 0x90, 0x90, 0xE0,
   0xF0, 0x80, 0xF0, 0x80, 0xF0, 0xF0, 0x80, 0xF0, 0x80, 0x80]

/-- The Memory struct from memory.rs: the data array (MEMORY_SIZE bytes,
modelled as a total function whose meaningful domain is indices below
MEMORY_SIZE) and the frame buffer (SCREEN_SIZE cells). -/
structure Memory where
  data : Nat → Nat
  frame_buffer : Nat → Nat

/-- Memory::new — completely clear memory. -/
def Memory.new : Memory :=
  { data := fun _ => 0, frame_buffer := fun _ => 0 }

/-- Memory::get from memory.rs.  Indices below 0x4000 read the data array
(the Rust indexing panics for idx in [MEMORY_SIZE, 0x4000), modelled as
none); indices at or above 0x4000 read SPRITE_MEM (again, past its 80
entries the Rust indexing panics, modelled as none). -/
def Memory.get (m : Memory) (idx : Nat) : Option Nat :=
  if idx < 0x4000 then
    if idx < MEMORY_SIZE then some (m.data idx) else none
  else
    SPRITE_MEM[idx - 0x4000]?

/-- Memory::set from memory.rs: a direct store into the data array; the
Rust indexing panics for idx at or above MEMORY_SIZE (modelled as none). -/
def Memory.set (m : Memory) (idx : Nat) (val : Nat) : Option Memory :=
  if idx < MEMORY_SIZE then
    some { m with data := fun j => if j = idx then val else m.data j }
  else
    none

/-- The copy loop of Memory::of_bytes: writes the given bytes at
consecutive indices starting at offset, failing (as the Rust indexing
does) as soon as an index reaches MEMORY_SIZE. -/
def Memory.ofBytesAux (m : Memory) (offset : Nat) : List Nat → Option Memory
  | [] => some m
  | b :: rest =>
    match m.set offset b with
    | some m' => Memory.ofBytesAux m' (offset + 1) rest
    | none => none

/-- Memory::of_bytes from memory.rs: starts from clear memory and copies
min(data.len(), MEMORY_SIZE) bytes to offset, offset+1, ... -/
def Memory.ofBytes (data : List Nat) (offset : Nat) : Option Memory :=
  Memory.ofBytesAux Memory.new offset (data.take (min data.length MEMORY_SIZE))

/-- u16::swap_bytes on a (< 2^16) value, written exactly as the bit
manipulation the machine performs. -/
def u16_swap_bytes (x : Nat) : Nat :=
  ((x &&& 0xFF) <<< 8) ||| (x >>> 8)

/-- u16::from_be on a little-endian host: converting from big endian swaps
the two bytes.  (The repository's own get16 unit test pins down this
little-endian-host behaviour: get16 of bytes 0x9E, 0xFE is 0x9EFE.) -/
def u16_from_be (x : Nat) : Nat := u16_swap_bytes x

/-- Memory::get16 from memory.rs: reads the bytes at idx and idx+1,
assembles first | second << 8 and converts from big-endian. -/
def Memory.get16 (m : Memory) (idx : Nat) : Option Nat := do
  let first ← m.get idx
  let second ← m.get (idx + 1)
  some (u16_from_be (first ||| (second <<< 8)))

/-- Memory::clear_display from memory.rs: zeroes the whole frame buffer. -/
def Memory.clear_display (m : Memory) : Memory :=
  { m with frame_buffer := fun _ => 0 }

/-- One iteration of the inner (xoff) loop of Memory::draw_sprite: XORs one
sprite bit into the frame buffer cell at ((y' * SCREEN_WIDTH) + (x + xoff)
% SCREEN_WIDTH) and latches the collision flag when a set pixel is
cleared.  State is the pair (frame buffer, vf_reg). -/
def drawCell (x y' sprite : Nat) (s : (Nat → Nat) × Nat) (xoff : Nat) :
    (Nat → Nat) × Nat :=
  let fb := s.1
  let fb_idx := (y' * SCREEN_WIDTH) + (x + xoff) % SCREEN_WIDTH
  let xor_value := if sprite &&& (1 <<< (7 - xoff)) ≠ 0 then 1 else 0
  let current_value := fb fb_idx
  let new_value := current_value ^^^ xor_value
  ((fun j => if j = fb_idx then new_value else fb j),
   if current_value = 1 ∧ new_value = 0 then 1 else s.2)

/-- The inner loop of Memory::draw_sprite over xoff in 0..8. -/
def drawRow (x y' sprite : Nat) (s : (Nat → Nat) × Nat) : (Nat → Nat) × Nat :=
  (List.range 8).foldl (drawCell x y' sprite) s

/-- The outer (yoff) loop of Memory::draw_sprite, over the given list of
row offsets: reads each sprite byte from memory (which can fail like the
Rust indexing) and folds the row into the frame buffer state. -/
def drawRows (m : Memory) (x y i : Nat) :
    List Nat → (Nat → Nat) × Nat → Option ((Nat → Nat) × Nat)
  | [], s => some s
  | yoff :: rest, s =>
    match m.get (i + yoff) with
    | some sprite =>
      drawRows m x y i rest (drawRow x ((y + yoff) % SCREEN_HEIGHT) sprite s)
    | none => none

/-- Memory::draw_sprite from memory.rs: XOR-draws n sprite rows read from
address i at position (x, y), returning the updated memory and the
collision flag. -/
def Memory.draw_sprite (m : Memory) (x y n i : Nat) : Option (Memory × Nat) := do
  let (fb', vf_reg) ← drawRows m x y i (List.range n) (m.frame_buffer, 0)
  some ({ m with frame_buffer := fb' }, vf_reg)

/-! Bit-arithmetic helpers used to reason about the byte assembly in
get16 and the stack push/pop byte splitting. -/

theorem and_255_eq_mod (x : Nat) : x &&& 255 = x % 256 := by
  have h := Nat.and_pow_two_sub_one_eq_mod x 8
  norm_num at h
  exact h

theorem lor_shiftLeft8 (a b : Nat) (ha : a < 256) :
    a ||| (b <<< 8) = b * 256 + a := by
  have h1 : a ||| (b <<< 8) = b <<< 8 ||| a := Nat.lor_comm _ _
  have h2 : b <<< 8 = 2 ^ 8 * b := by
    rw [Nat.shiftLeft_eq, Nat.mul_comm]
  have h3 : 2 ^ 8 * b + a = 2 ^ 8 * b ||| a :=
    Nat.mul_add_lt_is_or (lt_of_lt_of_le ha (by norm_num)) b
  rw [h1, h2, ← h3]
  ring

theorem shiftRight8_eq_div (x : Nat) : x >>> 8 = x / 256 := by
  rw [Nat.shiftRight_eq_div_pow]

/-- Helper: the byte-swap applied to an assembled pair of bytes recovers the
big-endian combination. -/
theorem u16_from_be_assemble (a b : Nat) (ha : a < 256) (hb : b < 256) :
    u16_from_be (a ||| (b <<< 8)) = a * 256 + b := by
  unfold u16_from_be u16_swap_bytes
  rw [lor_shiftLeft8 a b ha]
  rw [and_255_eq_mod, shiftRight8_eq_div]
  have h1 : (b * 256 + a) % 256 = a := by omega
  have h2 : (b * 256 + a) / 256 = b := by omega
  rw [h1, h2, Nat.lor_comm]
  exact lor_shiftLeft8 b a hb

/-- Claim C8: for every address addr in the valid data region (both reads
succeed and return bytes), read_word(addr) is the big-endian combination
read_byte(addr) * 256 + read_byte(addr+1), the byte at the lower address
being the most significant. -/
theorem get16_big_endian (m : Memory) (idx a b : Nat)
    (h1 : m.get idx = some a) (h2 : m.get (idx + 1) = some b)
    (ha : a < 256) (hb : b < 256) :
    m.get16 idx = some (a * 256 + b) := by
  unfold Memory.get16
  rw [h1, h2]
  simp [Option.bind, u16_from_be_assemble a b ha hb]

/-- A sample memory holding bytes 0x9E and 0xFE at addresses 5 and 6 (the
configuration of the repository's own get16 unit test). -/
def memTest9EFE : Memory :=
  { data := fun j => if j = 5 then 0x9E else if j = 6 then 0xFE else 0,
    frame_buffer := fun _ => 0 }

/-- Witness for C8: on the test memory, get16 at address 5 returns 0x9EFE. -/
theorem get16_big_endian_witness :
    memTest9EFE.get 5 = some 0x9E ∧ memTest9EFE.get 6 = some 0xFE ∧
    memTest9EFE.get16 5 = some 0x9EFE :=
  ⟨by decide, by decide,
   get16_big_endian memTest9EFE 5 0x9E 0xFE (by decide) (by decide)
     (by decide) (by decide)⟩

/-! Load-time behaviour of Memory::of_bytes (claim C7). -/

/-- If the copy loop would run past the end of the data array, it fails
(the Rust indexing panics). -/
theorem ofBytesAux_none (bytes : List Nat) :
    ∀ (m : Memory) (off : Nat), bytes ≠ [] →
      MEMORY_SIZE < off + bytes.length →
      Memory.ofBytesAux m off bytes = none := by
  induction bytes with
  | nil => intro m off hne _; exact absurd rfl hne
  | cons b rest ih =>
    intro m off _ hover
    unfold Memory.ofBytesAux Memory.set
    by_cases hoff : off < MEMORY_SIZE
    · have hrest : rest ≠ [] := by
        intro hcon
        subst hcon
        simp at hover
        omega
      have hover' : MEMORY_SIZE < (off + 1) + rest.length := by
        simp at hover ⊢
        omega
      simp [hoff]
      exact ih _ _ hrest hover'
    · simp [hoff]

/-- If the copy loop stays in bounds it succeeds, writing the bytes
verbatim at off, off+1, ... and leaving every other cell unchanged. -/
theorem ofBytesAux_some (bytes : List Nat) :
    ∀ (m : Memory) (off : Nat), off + bytes.length ≤ MEMORY_SIZE →
      ∃ m', Memory.ofBytesAux m off bytes = some m' ∧
        (∀ j, m'.data j =
          if off ≤ j ∧ j < off + bytes.length then bytes.getD (j - off) 0
          else m.data j) := by
  induction bytes with
  | nil =>
    intro m off _
    refine ⟨m, rfl, fun j => ?_⟩
    rw [if_neg (by simp)]
  | cons b rest ih =>
    intro m off hle
    have hoff : off < MEMORY_SIZE := by
      simp only [List.length_cons] at hle
      omega
    have hle' : (off + 1) + rest.length ≤ MEMORY_SIZE := by
      simp only [List.length_cons] at hle
      omega
    obtain ⟨m', hm', hdata⟩ :=
      ih { m with data := fun j => if j = off then b else m.data j } (off + 1) hle'
    refine ⟨m', ?_, fun j => ?_⟩
    · unfold Memory.ofBytesAux Memory.set
      simp [hoff]
      exact hm'
    · rw [hdata j]
      simp only [List.length_cons]
      by_cases hj0 : j = off
      · subst hj0
        rw [if_neg (by omega), if_pos (by omega), if_pos (by omega)]
        simp only [Nat.sub_self, List.getD_cons_zero]
      · by_cases hj1 : off + 1 ≤ j ∧ j < (off + 1) + rest.length
        · rw [if_pos hj1, if_pos (by omega)]
          have hsub : j - off = (j - (off + 1)) + 1 := by omega
          rw [hsub]
          simp only [List.getD_cons_succ]
        · rw [if_neg hj1, if_neg hj0, if_neg (by omega)]

/-- Counterexample to claim C7 as stated: loading a 7681-byte program at
offset 0x200 runs the copy index to MEMORY_SIZE (= 8192) and the store
goes out of bounds (a panic in the Rust source), so the load fails rather
than succeeding for every length of input. -/
theorem of_bytes_overflow :
    Memory.ofBytes (List.replicate 7681 0) 0x200 = none := by
  unfold Memory.ofBytes
  have hlen : (List.replicate 7681 (0 : Nat)).length = 7681 :=
    List.length_replicate 7681 0
  have htake : min (List.replicate 7681 (0 : Nat)).length MEMORY_SIZE = 7681 := by
    rw [hlen]
    decide
  rw [htake]
  have htk : (List.replicate 7681 (0 : Nat)).take 7681 = List.replicate 7681 0 := by
    rw [List.take_replicate, Nat.min_self]
  rw [htk]
  refine ofBytesAux_none _ _ _ ?_ ?_
  · rw [← List.length_pos_iff_ne_nil, hlen]
    omega
  · rw [hlen]
    decide

/-- Claim C7 (amended): for inputs of length at most MEMORY_SIZE - 0x200
(= 7680 bytes), loading at offset 0x200 succeeds, the bytes are copied
verbatim into the data region starting at 0x200, and all other data cells
are zero. -/
theorem of_bytes_loads_verbatim (data : List Nat)
    (hlen : data.length ≤ 7680) :
    ∃ m, Memory.ofBytes data 0x200 = some m ∧
      (∀ j, m.data j =
        if 0x200 ≤ j ∧ j < 0x200 + data.length then data.getD (j - 0x200) 0
        else 0) := by
  unfold Memory.ofBytes
  have hmin : min data.length MEMORY_SIZE = data.length := by
    have : MEMORY_SIZE = 8192 := by decide
    omega
  rw [hmin, List.take_length]
  have hle : 0x200 + data.length ≤ MEMORY_SIZE := by
    have : MEMORY_SIZE = 8192 := by decide
    omega
  obtain ⟨m, hm, hdata⟩ := ofBytesAux_some data Memory.new 0x200 hle
  exact ⟨m, hm, fun j => hdata j⟩

/-- Witness for C7's amended theorem: the two-byte program 0xAB, 0xCD loads
successfully and lands at 0x200 and 0x201. -/
theorem of_bytes_loads_verbatim_witness :
    [0xAB, 0xCD].length ≤ 7680 ∧
    ∃ m, Memory.ofBytes [0xAB, 0xCD] 0x200 = some m ∧
      (∀ j, m.data j =
        if 0x200 ≤ j ∧ j < 0x200 + [0xAB, 0xCD].length
        then [0xAB, 0xCD].getD (j - 0x200) 0 else 0) :=
  ⟨by decide, of_bytes_loads_verbatim [0xAB, 0xCD] (by decide)⟩

/-! Frame effect of Memory::draw_sprite (claim C10): only the frame buffer
changes. -/

/-- draw_sprite leaves the data array untouched: the result is the input
memory with only the frame_buffer field replaced. -/
theorem draw_sprite_data_unchanged (m : Memory) (x y n i : Nat)
    (m' : Memory) (flag : Nat)
    (h : m.draw_sprite x y n i = some (m', flag)) : m'.data = m.data := by
  unfold Memory.draw_sprite at h
  cases hdr : drawRows m x y i (List.range n) (m.frame_buffer, 0) with
  | none => rw [hdr] at h; simp at h
  | some s =>
    rw [hdr] at h
    simp at h
    rw [← h.1]

/-- Memory::get only reads the data array, so it is invariant under any
change that preserves data. -/
theorem get_congr_of_data_eq (m m' : Memory) (h : m'.data = m.data) :
    ∀ addr, m'.get addr = m.get addr := by
  intro addr
  unfold Memory.get
  rw [h]

/-- Claim C10: draw_sprite mutates only the framebuffer; every Memory::get
of any address returns the same byte before and after the call. -/
theorem draw_sprite_preserves_get (m : Memory) (x y n i : Nat)
    (m' : Memory) (flag : Nat)
    (h : m.draw_sprite x y n i = some (m', flag)) :
    ∀ addr, m'.get addr = m.get addr :=
  get_congr_of_data_eq m m' (draw_sprite_data_unchanged m x y n i m' flag h)

/-- Witness for C10 at a concrete call: drawing one row of the zero sprite
on clear memory leaves every read unchanged. -/
theorem draw_sprite_preserves_get_witness :
    ∃ m' flag, Memory.new.draw_sprite 0 0 1 0 = some (m', flag) ∧
      ∀ addr, m'.get addr = Memory.new.get addr := by
  obtain ⟨m', flag, h⟩ :
      ∃ m' flag, Memory.new.draw_sprite 0 0 1 0 = some (m', flag) :=
    ⟨_, _, rfl⟩
  exact ⟨m', flag, h, draw_sprite_preserves_get Memory.new 0 0 1 0 m' flag h⟩

/-! Double-XOR analysis of draw_sprite (claim C6).  The nested loops of
draw_sprite are re-expressed as a fold over an explicit list of
(cell index, xor value) toggles; the toggle list depends only on the data
array (never on the frame buffer), which gives the involution and the
collision guarantee. -/

/-- One toggle applied to a (frame buffer, collision flag) state: the cell
at index t.1 is XORed with t.2 and the flag latches when a cell holding 1
is cleared; this is drawCell with its cell index and xor value
precomputed. -/
def toggleStep (s : (Nat → Nat) × Nat) (t : Nat × Nat) : (Nat → Nat) × Nat :=
  ((fun j => if j = t.1 then s.1 t.1 ^^^ t.2 else s.1 j),
   if s.1 t.1 = 1 ∧ s.1 t.1 ^^^ t.2 = 0 then 1 else s.2)

/-- Folding a toggle list over a state. -/
def applyToggles (l : List (Nat × Nat)) (s : (Nat → Nat) × Nat) :
    (Nat → Nat) × Nat :=
  l.foldl toggleStep s

/-- The toggle performed by drawCell for a given column offset. -/
def cellToggle (x y' sprite xoff : Nat) : Nat × Nat :=
  ((y' * SCREEN_WIDTH) + (x + xoff) % SCREEN_WIDTH,
   if sprite &&& (1 <<< (7 - xoff)) ≠ 0 then 1 else 0)

theorem drawCell_eq_toggleStep (x y' sprite : Nat) (s : (Nat → Nat) × Nat)
    (xoff : Nat) :
    drawCell x y' sprite s xoff = toggleStep s (cellToggle x y' sprite xoff) :=
  rfl

/-- The toggles of one sprite row. -/
def rowToggles (x y' sprite : Nat) : List (Nat × Nat) :=
  (List.range 8).map (cellToggle x y' sprite)

theorem drawRow_eq_applyToggles (x y' sprite : Nat) (s : (Nat → Nat) × Nat) :
    drawRow x y' sprite s = applyToggles (rowToggles x y' sprite) s := by
  unfold drawRow applyToggles rowToggles
  rw [List.foldl_map]
  rfl

/-- The toggles of a whole draw_sprite call, for a given list of row
offsets; depends on the memory only through Memory::get on the sprite
addresses. -/
def togglesOf (m : Memory) (x y i : Nat) : List Nat → List (Nat × Nat)
  | [] => []
  | yoff :: rest =>
    rowToggles x ((y + yoff) % SCREEN_HEIGHT) ((m.get (i + yoff)).getD 0) ++
      togglesOf m x y i rest

theorem togglesOf_congr (m m' : Memory) (x y i : Nat)
    (h : ∀ a, m'.get a = m.get a) :
    ∀ yoffs, togglesOf m' x y i yoffs = togglesOf m x y i yoffs := by
  intro yoffs
  induction yoffs with
  | nil => rfl
  | cons yoff rest ih =>
    unfold togglesOf
    rw [h, ih]

/-- When every sprite-row read succeeds, drawRows is the fold of the
toggle list. -/
theorem drawRows_eq_applyToggles (m : Memory) (x y i : Nat) :
    ∀ (yoffs : List Nat), (∀ yoff ∈ yoffs, (m.get (i + yoff)).isSome) →
      ∀ s, drawRows m x y i yoffs s =
        some (applyToggles (togglesOf m x y i yoffs) s) := by
  intro yoffs
  induction yoffs with
  | nil => intro _ s; rfl
  | cons yoff rest ih =>
    intro hsome s
    have hhead : (m.get (i + yoff)).isSome := hsome yoff (List.mem_cons_self _ _)
    obtain ⟨sprite, hsprite⟩ := Option.isSome_iff_exists.mp hhead
    unfold drawRows togglesOf
    rw [hsprite]
    show drawRows m x y i rest (drawRow x ((y + yoff) % SCREEN_HEIGHT) sprite s) =
      some (applyToggles
        (rowToggles x ((y + yoff) % SCREEN_HEIGHT) ((some sprite).getD 0) ++
          togglesOf m x y i rest) s)
    rw [ih (fun a ha => hsome a (List.mem_cons_of_mem _ ha))]
    rw [drawRow_eq_applyToggles]
    unfold applyToggles
    rw [Option.getD_some, List.foldl_append]

/-- Conversely, a successful drawRows means every sprite-row read
succeeded. -/
theorem drawRows_some_reads (m : Memory) (x y i : Nat) :
    ∀ (yoffs : List Nat) (s r), drawRows m x y i yoffs s = some r →
      ∀ yoff ∈ yoffs, (m.get (i + yoff)).isSome := by
  intro yoffs
  induction yoffs with
  | nil => intro s r _ yoff hmem; simp at hmem
  | cons y0 rest ih =>
    intro s r h yoff hmem
    unfold drawRows at h
    cases hget : m.get (i + y0) with
    | none => rw [hget] at h; simp at h
    | some sprite =>
      rw [hget] at h
      rcases List.mem_cons.mp hmem with heq | hmem'
      · subst heq; rw [hget]; rfl
      · exact ih _ _ h yoff hmem'

/-- Accumulated xor value a toggle list applies to a given cell. -/
def xorAt : List (Nat × Nat) → Nat → Nat
  | [], _ => 0
  | t :: rest, p => (if t.1 = p then t.2 else 0) ^^^ xorAt rest p

/-- Pointwise effect of a toggle fold on the frame buffer: pure XOR with
the accumulated value, independent of the initial flag. -/
theorem applyToggles_fst (l : List (Nat × Nat)) :
    ∀ (s : (Nat → Nat) × Nat) (p : Nat),
      (applyToggles l s).1 p = s.1 p ^^^ xorAt l p := by
  induction l with
  | nil => intro s p; rw [applyToggles, List.foldl_nil, xorAt, Nat.xor_zero]
  | cons t rest ih =>
    intro s p
    have hstep : applyToggles (t :: rest) s = applyToggles rest (toggleStep s t) := rfl
    rw [hstep, ih, xorAt]
    by_cases hp : t.1 = p
    · subst hp
      have h1 : (toggleStep s t).1 t.1 = s.1 t.1 ^^^ t.2 := by
        unfold toggleStep
        simp
      rw [h1, if_pos rfl, Nat.xor_assoc]
    · have h1 : (toggleStep s t).1 p = s.1 p := by
        unfold toggleStep
        simp only []
        rw [if_neg (fun hc => hp hc.symm)]
      rw [h1, if_neg hp, Nat.zero_xor]

/-- The collision flag never resets during a toggle fold. -/
theorem applyToggles_flag_stays (l : List (Nat × Nat)) :
    ∀ s, s.2 = 1 → (applyToggles l s).2 = 1 := by
  induction l with
  | nil => intro s h; exact h
  | cons t rest ih =>
    intro s h
    have hstep : applyToggles (t :: rest) s = applyToggles rest (toggleStep s t) := rfl
    rw [hstep]
    refine ih _ ?_
    show (if s.1 t.1 = 1 ∧ s.1 t.1 ^^^ t.2 = 0 then 1 else s.2) = 1
    by_cases hc : s.1 t.1 = 1 ∧ s.1 t.1 ^^^ t.2 = 0
    · rw [if_pos hc]
    · rw [if_neg hc]
      exact h

/-- If some toggle (p, 1) occurs in the list and the cell p currently
holds 1, the fold reports a collision. -/
theorem applyToggles_collision (l : List (Nat × Nat))
    (hvals : ∀ e ∈ l, e.2 = 0 ∨ e.2 = 1) :
    ∀ (s : (Nat → Nat) × Nat) (p : Nat), (p, 1) ∈ l → s.1 p = 1 →
      (applyToggles l s).2 = 1 := by
  induction l with
  | nil => intro s p hmem _; simp at hmem
  | cons t rest ih =>
    intro s p hmem hone
    have hstep : applyToggles (t :: rest) s = applyToggles rest (toggleStep s t) := rfl
    rw [hstep]
    by_cases ht : t = (p, 1)
    · subst ht
      refine applyToggles_flag_stays rest _ ?_
      have hcond : s.1 p = 1 ∧ s.1 p ^^^ 1 = 0 := ⟨hone, by rw [hone]; decide⟩
      show (if s.1 p = 1 ∧ s.1 p ^^^ 1 = 0 then 1 else s.2) = 1
      rw [if_pos hcond]
    · have hmem' : (p, 1) ∈ rest := by
        rcases List.mem_cons.mp hmem with heq | h
        · exact absurd heq.symm ht
        · exact h
      have hvals' : ∀ e ∈ rest, e.2 = 0 ∨ e.2 = 1 :=
        fun e he => hvals e (List.mem_cons_of_mem _ he)
      refine ih hvals' _ p hmem' ?_
      unfold toggleStep
      simp only []
      by_cases hp : p = t.1
      · rw [if_pos hp]
        have ht2 : t.2 = 0 := by
          rcases hvals t (List.mem_cons_self _ _) with h0 | h1
          · exact h0
          · exact absurd (Prod.ext hp.symm h1) ht
        rw [← hp, ht2, Nat.xor_zero, hone]
      · rw [if_neg hp]
        exact hone

/-- A nonzero accumulated xor at cell p forces an explicit (p, 1) toggle,
provided all xor values are bits. -/
theorem xorAt_ne_zero_mem (l : List (Nat × Nat))
    (hvals : ∀ e ∈ l, e.2 = 0 ∨ e.2 = 1) :
    ∀ p, xorAt l p ≠ 0 → (p, 1) ∈ l := by
  induction l with
  | nil => intro p h; exact absurd rfl h
  | cons t rest ih =>
    intro p h
    rw [xorAt] at h
    by_cases hc : t.1 = p ∧ t.2 = 1
    · have : t = (p, 1) := Prod.ext hc.1 hc.2
      rw [this]
      exact List.mem_cons_self _ _
    · have hzero : (if t.1 = p then t.2 else 0) = 0 := by
        by_cases hp : t.1 = p
        · rw [if_pos hp]
          rcases hvals t (List.mem_cons_self _ _) with h0 | h1
          · exact h0
          · exact absurd ⟨hp, h1⟩ hc
        · rw [if_neg hp]
      rw [hzero, Nat.zero_xor] at h
      exact List.mem_cons_of_mem _ (ih (fun e he => hvals e (List.mem_cons_of_mem _ he)) p h)

/-- Every xor value produced by the sprite loops is a bit. -/
theorem togglesOf_vals (m : Memory) (x y i : Nat) :
    ∀ yoffs, ∀ e ∈ togglesOf m x y i yoffs, e.2 = 0 ∨ e.2 = 1 := by
  intro yoffs
  induction yoffs with
  | nil => intro e he; simp [togglesOf] at he
  | cons yoff rest ih =>
    intro e he
    unfold togglesOf at he
    rcases List.mem_append.mp he with hrow | hrest
    · obtain ⟨xoff, _, hcell⟩ := List.mem_map.mp hrow
      rw [← hcell]
      unfold cellToggle
      by_cases hbit :
          ((m.get (i + yoff)).getD 0) &&& (1 <<< (7 - xoff)) ≠ 0
      · right; simp [hbit]
      · left; simp [hbit]
    · exact ih e hrest

/-- Helper: a successful draw_sprite call expressed through the toggle
fold. -/
theorem draw_sprite_eq_applyToggles (m : Memory) (x y n i : Nat)
    (hv : ∀ yoff ∈ List.range n, (m.get (i + yoff)).isSome) :
    m.draw_sprite x y n i =
      some ({ m with frame_buffer :=
                (applyToggles (togglesOf m x y i (List.range n))
                  (m.frame_buffer, 0)).1 },
            (applyToggles (togglesOf m x y i (List.range n))
              (m.frame_buffer, 0)).2) := by
  unfold Memory.draw_sprite
  rw [drawRows_eq_applyToggles m x y i (List.range n) hv (m.frame_buffer, 0)]
  rfl

/-- Helper: applying the same toggle list twice is the identity on the
frame buffer. -/
theorem applyToggles_involution (L : List (Nat × Nat)) (fb : Nat → Nat) :
    (applyToggles L ((applyToggles L (fb, 0)).1, 0)).1 = fb := by
  funext p
  rw [applyToggles_fst, applyToggles_fst]
  show fb p ^^^ xorAt L p ^^^ xorAt L p = fb p
  rw [Nat.xor_assoc, Nat.xor_self, Nat.xor_zero]

/-- Helper: if the first pass turned cell p from 0 to 1, the second pass
reports a collision. -/
theorem applyToggles_second_collision (L : List (Nat × Nat))
    (hvals : ∀ e ∈ L, e.2 = 0 ∨ e.2 = 1) (fb : Nat → Nat) (p : Nat)
    (h0 : fb p = 0) (h1 : (applyToggles L (fb, 0)).1 p = 1) :
    (applyToggles L ((applyToggles L (fb, 0)).1, 0)).2 = 1 := by
  have hfst := applyToggles_fst L (fb, 0) p
  have hX : xorAt L p = 1 := by
    rw [h1] at hfst
    have : (fb, 0).1 p = fb p := rfl
    rw [this, h0, Nat.zero_xor] at hfst
    exact hfst.symm
  have hmem : (p, 1) ∈ L :=
    xorAt_ne_zero_mem L hvals p (by rw [hX]; omega)
  exact applyToggles_collision L hvals _ p hmem h1

/-- Claim C6: drawing the same sprite twice in succession restores the
framebuffer to its pre-first-draw state, and the second draw reports a
collision whenever the first draw set at least one pixel.  The hypothesis
says every sprite-row read is in bounds (otherwise the Rust code
panics). -/
theorem draw_sprite_double_xor (m : Memory) (x y n i : Nat)
    (hvalid : ∀ yoff < n, (m.get (i + yoff)).isSome) :
    ∃ m1 r1 m2 r2,
      m.draw_sprite x y n i = some (m1, r1) ∧
      m1.draw_sprite x y n i = some (m2, r2) ∧
      m2.frame_buffer = m.frame_buffer ∧
      ((∃ p, m.frame_buffer p = 0 ∧ m1.frame_buffer p = 1) → r2 = 1) := by
  have hv : ∀ yoff ∈ List.range n, (m.get (i + yoff)).isSome :=
    fun a ha => hvalid a (List.mem_range.mp ha)
  have hd1 := draw_sprite_eq_applyToggles m x y n i hv
  have hget1 : ∀ a,
      Memory.get { m with frame_buffer :=
        (applyToggles (togglesOf m x y i (List.range n))
          (m.frame_buffer, 0)).1 } a = m.get a :=
    get_congr_of_data_eq m _ rfl
  have hv1 : ∀ yoff ∈ List.range n,
      (Memory.get { m with frame_buffer :=
        (applyToggles (togglesOf m x y i (List.range n))
          (m.frame_buffer, 0)).1 } (i + yoff)).isSome := by
    intro a ha
    rw [hget1]
    exact hv a ha
  have hd2 := draw_sprite_eq_applyToggles
    { m with frame_buffer :=
        (applyToggles (togglesOf m x y i (List.range n))
          (m.frame_buffer, 0)).1 } x y n i hv1
  rw [togglesOf_congr m _ x y i hget1 (List.range n)] at hd2
  refine ⟨_, _, _, _, hd1, hd2, ?_, ?_⟩
  · exact applyToggles_involution (togglesOf m x y i (List.range n)) m.frame_buffer
  · rintro ⟨p, h0, h1⟩
    exact applyToggles_second_collision (togglesOf m x y i (List.range n))
      (togglesOf_vals m x y i (List.range n)) m.frame_buffer p h0 h1

/-- Witness for C6: drawing one row of the zero sprite from clear memory
(in-bounds reads) instantiates the double-draw theorem. -/
theorem draw_sprite_double_xor_witness :
    (∀ yoff < 1, ((Memory.new).get (0 + yoff)).isSome) ∧
    ∃ m1 r1 m2 r2,
      Memory.new.draw_sprite 0 0 1 0 = some (m1, r1) ∧
      m1.draw_sprite 0 0 1 0 = some (m2, r2) ∧
      m2.frame_buffer = Memory.new.frame_buffer ∧
      ((∃ p, Memory.new.frame_buffer p = 0 ∧ m1.frame_buffer p = 1) → r2 = 1) :=
  ⟨by decide, draw_sprite_double_xor Memory.new 0 0 1 0 (by decide)⟩

/-! The CPU (cpu.rs): register file, instruction handlers and dispatch.
The two dispatch arrays (main_op_table, math_op_table, load_op_table) are
constant tables of function pointers; they are embedded as the equivalent
selector chains, with an out-of-range selector producing none exactly
where the Rust array indexing or the invalid_op handler panics.  The
ThreadRng random source is modelled as an oracle byte stream plus a
consumption index. -/

/-- INSTRUCTION_SIZE from cpu.rs. -/
def INSTRUCTION_SIZE : Nat := 0x2

/-- REGISTER_MASK from cpu.rs. -/
def REGISTER_MASK : Nat := 0x0F00

/-- REGISTER_TWO_MASK from cpu.rs. -/
def REGISTER_TWO_MASK : Nat := 0x00F0

/-- DATA_MASK from cpu.rs. -/
def DATA_MASK : Nat := 0x00FF

/-- NIBBLE_DATA_MASK from cpu.rs. -/
def NIBBLE_DATA_MASK : Nat := 0x000F

/-- The Registers struct from cpu.rs: 16 8-bit general registers, 16-bit
pc and i, the 256-byte return stack with its index, and the two 8-bit
timers.  keys and wait_for_key are the key-state fields machine.rs
accesses on cpu.registers (Machine::set_key and Machine::step);
rng_stream and rng_idx model the ThreadRng consumed by the masked-random
opcode. -/
structure Registers where
  v : Nat → Nat
  pc : Nat
  i : Nat
  stack : Nat → Nat
  stack_idx : Nat
  delay : Nat
  sound : Nat
  keys : Nat → Bool
  wait_for_key : Option Nat
  rng_stream : Nat → Nat
  rng_idx : Nat

/-- The array store v[idx] = val. -/
def Registers.setV (r : Registers) (idx val : Nat) : Registers :=
  { r with v := fun j => if j = idx then val else r.v j }

/-- Registers::inc_pc: wrapping 16-bit pc increment. -/
def Registers.inc_pc (r : Registers) (val : Nat) : Registers :=
  { r with pc := (r.pc + val) % 65536 }

/-- Registers::stack_push16: stores the value big-endian at stack_idx,
stack_idx+1 and advances the index by 2; the Rust array indexing panics
when either slot is past the 256-byte stack (modelled as none). -/
def Registers.stack_push16 (r : Registers) (value : Nat) : Option Registers :=
  let lower_part := value &&& 0x00FF
  let upper_part := (value &&& 0xFF00) >>> 8
  if r.stack_idx + 1 < 256 then
    some { r with
      stack := fun j =>
        if j = r.stack_idx then upper_part
        else if j = r.stack_idx + 1 then lower_part
        else r.stack j,
      stack_idx := r.stack_idx + 2 }
  else
    none

/-- Registers::stack_pop16: moves the index back by 2 and reads the two
bytes big-endian; the Rust usize subtraction panics on an index below 2
and the array reads panic past the stack (modelled as none). -/
def Registers.stack_pop16 (r : Registers) : Option (Registers × Nat) :=
  if 2 ≤ r.stack_idx ∧ r.stack_idx ≤ 256 then
    some ({ r with stack_idx := r.stack_idx - 2 },
          ((r.stack (r.stack_idx - 2)) <<< 8) ||| (r.stack (r.stack_idx - 1)))
  else
    none

/-- Instruction::register_from_data. -/
def register_from_data (data : Nat) : Nat :=
  (data &&& REGISTER_MASK) >>> 8

/-- Instruction::register_two_from_data. -/
def register_two_from_data (data : Nat) : Nat :=
  (data &&& REGISTER_TWO_MASK) >>> 4

/-- Instruction::immediate_from_data. -/
def immediate_from_data (data : Nat) : Nat :=
  data &&& DATA_MASK

/-- The result type of every instruction handler: the updated registers
and memory, or none where the Rust handler panics. -/
def HandlerResult : Type := Option (Registers × Memory)

namespace Instruction

/-- Instruction::mcall_display_or_flow: 0xE0 clears the display, 0xEE
returns (pops the stack into pc), anything else is an unsupported machine
code route (a panic). -/
def mcall_display_or_flow (r : Registers) (m : Memory) (data : Nat) :
    HandlerResult :=
  if data = 0xE0 then
    some (r.inc_pc 2, m.clear_display)
  else if data = 0xEE then
    match r.stack_pop16 with
    | some (r', new_pc) => some ({ r' with pc := new_pc }, m)
    | none => none
  else
    none

/-- Instruction::goto. -/
def goto (r : Registers) (m : Memory) (data : Nat) : HandlerResult :=
  some ({ r with pc := data }, m)

/-- Instruction::call: pushes pc + INSTRUCTION_SIZE (16-bit) and jumps to
the immediate. -/
def call (r : Registers) (m : Memory) (data : Nat) : HandlerResult :=
  match r.stack_push16 ((r.pc + INSTRUCTION_SIZE) % 65536) with
  | some r' => some ({ r' with pc := data }, m)
  | none => none

/-- Instruction::reg_equal: skip the next instruction when v[reg] equals
the immediate. -/
def reg_equal (r : Registers) (m : Memory) (data : Nat) : HandlerResult :=
  let register := register_from_data data
  let imm := immediate_from_data data
  some (r.inc_pc (if r.v register = imm then 4 else 2), m)

/-- Instruction::reg_not_equal. -/
def reg_not_equal (r : Registers) (m : Memory) (data : Nat) : HandlerResult :=
  let register := register_from_data data
  let imm := immediate_from_data data
  some (r.inc_pc (if r.v register ≠ imm then 4 else 2), m)

/-- Instruction::two_reg_equal. -/
def two_reg_equal (r : Registers) (m : Memory) (data : Nat) : HandlerResult :=
  let register1 := register_from_data data
  let register2 := register_two_from_data data
  some (r.inc_pc (if r.v register1 = r.v register2 then 4 else 2), m)

/-- Instruction::load_immediate. -/
def load_immediate (r : Registers) (m : Memory) (data : Nat) : HandlerResult :=
  let register := register_from_data data
  let imm := immediate_from_data data
  some ((r.setV register imm).inc_pc 2, m)

/-- Instruction::add_immediate (wrapping 8-bit add). -/
def add_immediate (r : Registers) (m : Memory) (data : Nat) : HandlerResult :=
  let register := register_from_data data
  let imm := immediate_from_data data
  some ((r.setV register ((r.v register + imm) % 256)).inc_pc 2, m)

/-- Instruction::mv_register (math sub-op 0). -/
def mv_register (r : Registers) (m : Memory) (data : Nat) : HandlerResult :=
  let register1 := register_from_data data
  let register2 := register_two_from_data data
  some ((r.setV register1 (r.v register2)).inc_pc 2, m)

/-- Instruction::or_register (math sub-op 1). -/
def or_register (r : Registers) (m : Memory) (data : Nat) : HandlerResult :=
  let register1 := register_from_data data
  let register2 := register_two_from_data data
  some ((r.setV register1 (r.v register1 ||| r.v register2)).inc_pc 2, m)

/-- Instruction::and_register (math sub-op 2). -/
def and_register (r : Registers) (m : Memory) (data : Nat) : HandlerResult :=
  let register1 := register_from_data data
  let register2 := register_two_from_data data
  some ((r.setV register1 (r.v register1 &&& r.v register2)).inc_pc 2, m)

/-- Instruction::xor_register (math sub-op 3). -/
def xor_register (r : Registers) (m : Memory) (data : Nat) : HandlerResult :=
  let register1 := register_from_data data
  let register2 := register_two_from_data data
  some ((r.setV register1 (r.v register1 ^^^ r.v register2)).inc_pc 2, m)

/-- Instruction::add_register (math sub-op 4): computes the wrapping sum,
writes the carry flag to v[0xF] (1 exactly when the wrapped sum is below
the pre-add v[register1]), then writes the sum to v[register1] — so a
flag written to v[0xF] is clobbered when register1 = 0xF. -/
def add_register (r : Registers) (m : Memory) (data : Nat) : HandlerResult :=
  let register1 := register_from_data data
  let register2 := register_two_from_data data
  let result := (r.v register1 + r.v register2) % 256
  let rA := r.setV 0xF (if result < r.v register1 then 1 else 0)
  some ((rA.setV register1 result).inc_pc 2, m)

/-- Wrapping 8-bit subtraction on byte values. -/
def u8_sub (a b : Nat) : Nat := (a % 256 + 256 - b % 256) % 256

/-- Instruction::sub_register (math sub-op 5). -/
def sub_register (r : Registers) (m : Memory) (data : Nat) : HandlerResult :=
  let register1 := register_from_data data
  let register2 := register_two_from_data data
  let result := u8_sub (r.v register1) (r.v register2)
  let rA := r.setV 0xF (if result > r.v register1 then 1 else 0)
  some ((rA.setV register1 result).inc_pc 2, m)

/-- Instruction::shr_register (math sub-op 6): the flag is written first
from v[register1] bit 0, then v[register1] is shifted in place (reading
the possibly flag-updated register, as the compound assignment does). -/
def shr_register (r : Registers) (m : Memory) (data : Nat) : HandlerResult :=
  let register1 := register_from_data data
  let rA := r.setV 0xF (r.v register1 &&& 0x1)
  some ((rA.setV register1 (rA.v register1 >>> 1)).inc_pc 2, m)

/-- Instruction::shl_register (math sub-op 8): v[0xF] receives
v[register1] & 0x80 (the unshifted bit-7 mask value, 0 or 128), then
v[register1] is doubled with 8-bit truncation. -/
def shl_register (r : Registers) (m : Memory) (data : Nat) : HandlerResult :=
  let register1 := register_from_data data
  let rA := r.setV 0xF (r.v register1 &&& (0x1 <<< 7))
  some ((rA.setV register1 ((rA.v register1 <<< 1) % 256)).inc_pc 2, m)

/-- Instruction::rev_sub_register (math sub-op 7). -/
def rev_sub_register (r : Registers) (m : Memory) (data : Nat) : HandlerResult :=
  let register1 := register_from_data data
  let register2 := register_two_from_data data
  let result := u8_sub (r.v register2) (r.v register1)
  let rA := r.setV 0xF (if result > r.v register2 then 1 else 0)
  some ((rA.setV register1 result).inc_pc 2, m)

/-- Instruction::invalid_op: a panic. -/
def invalid_op (_r : Registers) (_m : Memory) (_data : Nat) : HandlerResult :=
  none

/-- Instruction::math_or_bitop: second-level dispatch on the low nibble
through the 9-entry math_op_table; a selector of 9..15 indexes past the
table (a panic). -/
def math_or_bitop (r : Registers) (m : Memory) (data : Nat) : HandlerResult :=
  let math_opcode := data &&& 0x000F
  if math_opcode = 0 then mv_register r m data
  else if math_opcode = 1 then or_register r m data
  else if math_opcode = 2 then and_register r m data
  else if math_opcode = 3 then xor_register r m data
  else if math_opcode = 4 then add_register r m data
  else if math_opcode = 5 then sub_register r m data
  else if math_opcode = 6 then shr_register r m data
  else if math_opcode = 7 then rev_sub_register r m data
  else if math_opcode = 8 then shl_register r m data
  else none

/-- Instruction::two_registers_not_equal. -/
def two_registers_not_equal (r : Registers) (m : Memory) (data : Nat) :
    HandlerResult :=
  let register1 := register_from_data data
  let register2 := register_two_from_data data
  some (r.inc_pc (if r.v register1 ≠ r.v register2 then 4 else 2), m)

/-- Instruction::set_i. -/
def set_i (r : Registers) (m : Memory) (data : Nat) : HandlerResult :=
  some (({ r with i := data }).inc_pc 2, m)

/-- Instruction::jump_immediate_plus_register: pc = v[0] + data with
wrapping 16-bit addition. -/
def jump_immediate_plus_register (r : Registers) (m : Memory) (data : Nat) :
    HandlerResult :=
  some ({ r with pc := (r.v 0 + data) % 65536 }, m)

/-- Instruction::masked_random: draws the next oracle byte, masks it with
the immediate and stores it. -/
def masked_random (r : Registers) (m : Memory) (data : Nat) : HandlerResult :=
  let register := register_from_data data
  let mask := immediate_from_data data
  let rval := r.rng_stream r.rng_idx % 256
  some (({ r.setV register (rval &&& mask) with
            rng_idx := r.rng_idx + 1 }).inc_pc 2, m)

/-- Instruction::draw_sprite: draws at (v[reg1], v[reg2]) with the low
nibble as height, sprite data at index register i; the collision flag
lands in v[0xF]. -/
def draw_sprite (r : Registers) (m : Memory) (data : Nat) : HandlerResult :=
  let register1 := register_from_data data
  let register2 := register_two_from_data data
  let d := data &&& 0x000F
  match m.draw_sprite (r.v register1) (r.v register2) d r.i with
  | some (m', flag) => some ((r.setV 0xF flag).inc_pc 2, m')
  | none => none

/-- Instruction::key_op: the 0xE_ key-query family is a stub that only
advances pc. -/
def key_op (r : Registers) (m : Memory) (_data : Nat) : HandlerResult :=
  some (r.inc_pc 2, m)

/-- Instruction::get_delay (0xFX07). -/
def get_delay (r : Registers) (m : Memory) (data : Nat) : HandlerResult :=
  let register1 := register_from_data data
  some ((r.setV register1 r.delay).inc_pc 2, m)

/-- Instruction::set_delay (0xFX15). -/
def set_delay (r : Registers) (m : Memory) (data : Nat) : HandlerResult :=
  let register1 := register_from_data data
  some (({ r with delay := r.v register1 }).inc_pc 2, m)

/-- Instruction::set_sound (0xFX18). -/
def set_sound (r : Registers) (m : Memory) (data : Nat) : HandlerResult :=
  let register1 := register_from_data data
  some (({ r with sound := r.v register1 }).inc_pc 2, m)

/-- Instruction::wait_for_key (0xFX0A) as committed in cpu.rs: a stub
that only traces and advances pc by 2 — it does not touch the
wait_for_key latch. -/
def wait_for_key (r : Registers) (m : Memory) (_data : Nat) : HandlerResult :=
  some (r.inc_pc 2, m)

/-- Instruction::add_vx_i (0xFX1E): wrapping 16-bit i += v[x]. -/
def add_vx_i (r : Registers) (m : Memory) (data : Nat) : HandlerResult :=
  let register1 := register_from_data data
  some (({ r with i := (r.i + r.v register1) % 65536 }).inc_pc 2, m)

/-- Instruction::set_i_sprite_addr (0xFX29): points i into the reserved
font window. -/
def set_i_sprite_addr (r : Registers) (m : Memory) (data : Nat) :
    HandlerResult :=
  let register1 := register_from_data data
  some (({ r with i := 0x4000 + (r.v register1 &&& 0x0F) * 5 }).inc_pc 2, m)

/-- Instruction::bcd_vx (0xFX33): stores the three decimal digits of
v[x], least significant at i+2 first, then advances i by 3. -/
def bcd_vx (r : Registers) (m : Memory) (data : Nat) : HandlerResult :=
  let register1 := register_from_data data
  let tmp := r.v register1
  match m.set ((r.i + 2) % 65536) (tmp % 10) with
  | none => none
  | some m1 =>
    let tmp2 := tmp / 10
    match m1.set ((r.i + 1) % 65536) (tmp2 % 10) with
    | none => none
    | some m2 =>
      let tmp3 := tmp2 / 10
      match m2.set r.i (tmp3 % 10) with
      | none => none
      | some m3 =>
        some (({ r with i := (r.i + 3) % 65536 }).inc_pc 2, m3)

end Instruction

/-- The loop of Instruction::reg_dump: writes count registers starting at
v[j] to memory at i, i+1, ..., bumping i after each write. -/
def regDumpAux : Nat → Nat → Registers → Memory → Option (Registers × Memory)
  | 0, _, r, m => some (r, m)
  | Nat.succ k, j, r, m =>
    match m.set r.i (r.v j) with
    | some m' => regDumpAux k (j + 1) { r with i := (r.i + 1) % 65536 } m'
    | none => none

/-- The loop of Instruction::reg_load: reads count bytes from memory at
i, i+1, ... into v[j], v[j+1], ..., bumping i after each read. -/
def regLoadAux : Nat → Nat → Registers → Memory → Option (Registers × Memory)
  | 0, _, r, m => some (r, m)
  | Nat.succ k, j, r, m =>
    match m.get r.i with
    | some val =>
      regLoadAux k (j + 1) { r.setV j val with i := (r.i + 1) % 65536 } m
    | none => none

namespace Instruction

/-- Instruction::reg_dump (0xFX55). -/
def reg_dump (r : Registers) (m : Memory) (data : Nat) : HandlerResult :=
  let register1 := register_from_data data
  match regDumpAux (register1 + 1) 0 r m with
  | some (r', m') => some (r'.inc_pc 2, m')
  | none => none

/-- Instruction::reg_load (0xFX65). -/
def reg_load (r : Registers) (m : Memory) (data : Nat) : HandlerResult :=
  let register1 := register_from_data data
  match regLoadAux (register1 + 1) 0 r m with
  | some (r', m') => some (r'.inc_pc 2, m')
  | none => none

/-- Instruction::load_or_store: second-level dispatch on the low byte
through the sparse 0x66-entry load_op_table; a selector at or past 0x66
indexes out of the table (a panic), and unmapped selectors hit the
invalid_op filler (also a panic). -/
def load_or_store (r : Registers) (m : Memory) (data : Nat) : HandlerResult :=
  let opcode_mask := data &&& 0x00FF
  if 0x66 ≤ opcode_mask then none
  else if opcode_mask = 0x07 then get_delay r m data
  else if opcode_mask = 0x0A then wait_for_key r m data
  else if opcode_mask = 0x15 then set_delay r m data
  else if opcode_mask = 0x18 then set_sound r m data
  else if opcode_mask = 0x1E then add_vx_i r m data
  else if opcode_mask = 0x29 then set_i_sprite_addr r m data
  else if opcode_mask = 0x33 then bcd_vx r m data
  else if opcode_mask = 0x55 then reg_dump r m data
  else if opcode_mask = 0x65 then reg_load r m data
  else none

end Instruction

/-- The 16-entry main_op_table dispatch, keyed by the top nibble. -/
def execMain (op_id : Nat) (r : Registers) (m : Memory) (data : Nat) :
    HandlerResult :=
  if op_id = 0 then Instruction.mcall_display_or_flow r m data
  else if op_id = 1 then Instruction.goto r m data
  else if op_id = 2 then Instruction.call r m data
  else if op_id = 3 then Instruction.reg_equal r m data
  else if op_id = 4 then Instruction.reg_not_equal r m data
  else if op_id = 5 then Instruction.two_reg_equal r m data
  else if op_id = 6 then Instruction.load_immediate r m data
  else if op_id = 7 then Instruction.add_immediate r m data
  else if op_id = 8 then Instruction.math_or_bitop r m data
  else if op_id = 9 then Instruction.two_registers_not_equal r m data
  else if op_id = 10 then Instruction.set_i r m data
  else if op_id = 11 then Instruction.jump_immediate_plus_register r m data
  else if op_id = 12 then Instruction.masked_random r m data
  else if op_id = 13 then Instruction.draw_sprite r m data
  else if op_id = 14 then Instruction.key_op r m data
  else if op_id = 15 then Instruction.load_or_store r m data
  else none

/-- The Cpu struct from cpu.rs (the constant op tables carry no state and
are represented by the dispatch functions above). -/
structure Cpu where
  registers : Registers

/-- Cpu::new: all registers zero, empty stack, no pending key wait; the
random source is the supplied oracle stream. -/
def Registers.new (rng : Nat → Nat) : Registers :=
  { v := fun _ => 0, pc := 0, i := 0, stack := fun _ => 0, stack_idx := 0,
    delay := 0, sound := 0, keys := fun _ => false, wait_for_key := none,
    rng_stream := rng, rng_idx := 0 }

/-- Cpu::new. -/
def Cpu.new (rng : Nat → Nat) : Cpu := ⟨Registers.new rng⟩

/-- Cpu::step from cpu.rs: fetch a 16-bit opcode at pc, dispatch on the
top nibble with the low 12 bits as payload. -/
def Cpu.step (r : Registers) (m : Memory) : Option (Registers × Memory) :=
  match m.get16 r.pc with
  | some next_opcode =>
    execMain ((next_opcode &&& 0xF000) >>> 12) r m (next_opcode &&& 0x0FFF)
  | none => none

/-! The Machine (machine.rs). -/

/-- CLOCKS_PER_DELAY from machine.rs. -/
def CLOCKS_PER_DELAY : Nat := 8

/-- The Machine struct from machine.rs. -/
structure Machine where
  cpu : Cpu
  memory : Memory
  clocks_since_delay : Nat

/-- Machine::of_bytes: program loaded at 0x200, fresh CPU, zero tick
counter; fails when the memory copy goes out of bounds. -/
def Machine.of_bytes (data : List Nat) (rng : Nat → Nat) : Option Machine :=
  match Memory.ofBytes data 0x200 with
  | some mem => some { cpu := Cpu.new rng, memory := mem, clocks_since_delay := 0 }
  | none => none

/-- Machine::new. -/
def Machine.new (rng : Nat → Nat) : Machine :=
  { cpu := Cpu.new rng, memory := Memory.new, clocks_since_delay := 0 }

/-- Machine::set_key from machine.rs: a fresh key press resolves a pending
key wait (writing the key number into the latched register and clearing
the latch) before the key state is stored; the keys array indexing panics
for key at or past 16 (modelled as none). -/
def Machine.set_key (ma : Machine) (key : Nat) (state : Bool) : Option Machine :=
  if key < 16 then
    let r0 := ma.cpu.registers
    let current := r0.keys key
    let r1 :=
      if state = true ∧ current = false then
        match r0.wait_for_key with
        | some register =>
          { r0.setV register key with wait_for_key := none }
        | none => r0
      else r0
    some { ma with cpu := ⟨{ r1 with
      keys := fun j => if j = key then state else r1.keys j }⟩ }
  else
    none

/-- Machine::sound from machine.rs. -/
def Machine.sound (ma : Machine) : Bool := 0 < ma.cpu.registers.sound

/-- The first half of Machine::step: the CPU is stepped only when no key
wait is pending. -/
def Machine.instrPhase (ma : Machine) : Option Machine :=
  match ma.cpu.registers.wait_for_key with
  | none =>
    match Cpu.step ma.cpu.registers ma.memory with
    | some (r', m') => some { ma with cpu := ⟨r'⟩, memory := m' }
    | none => none
  | some _ => some ma

/-- The second half of Machine::step: the tick counter always increments,
and once it has reached CLOCKS_PER_DELAY the sound and delay timers are
each decremented when nonzero.  (The source never resets the counter.) -/
def Machine.timerPhase (ma : Machine) : Machine :=
  let clocks := ma.clocks_since_delay + 1
  let r0 := ma.cpu.registers
  let r1 :=
    if CLOCKS_PER_DELAY ≤ clocks then
      if 0 < r0.sound then { r0 with sound := r0.sound - 1 } else r0
    else r0
  let r2 :=
    if CLOCKS_PER_DELAY ≤ clocks then
      if 0 < r1.delay then { r1 with delay := r1.delay - 1 } else r1
    else r1
  { ma with cpu := ⟨r2⟩, clocks_since_delay := clocks }

/-- Machine::step from machine.rs: the instruction phase (skipped while
awaiting a key) followed by the timer phase. -/
def Machine.step (ma : Machine) : Option Machine :=
  match ma.instrPhase with
  | some ma' => some ma'.timerPhase
  | none => none

/-- Iterated Machine::step. -/
def Machine.stepN : Nat → Machine → Option Machine
  | 0, ma => some ma
  | Nat.succ k, ma =>
    match ma.step with
    | some ma' => Machine.stepN k ma'
    | none => none

/-! Claim C1: the timer tick counter.  machine.rs increments
clocks_since_delay every step and decrements the timers once the counter
has reached CLOCKS_PER_DELAY, but never resets the counter — so from the
eighth step onward the timers decrement on every step, not once per 8. -/

/-- A machine waiting for a key (so no instruction executes), with both
timers at 10 and a fresh tick counter. -/
def awaitingMachine : Machine :=
  { cpu := ⟨{ Registers.new (fun _ => 0) with
      wait_for_key := some 0, delay := 10, sound := 10 }⟩,
    memory := Memory.new, clocks_since_delay := 0 }

/-- Claim C1, evaluated on the code: after 9 steps the tick counter holds
9 (it was never reset on reaching 8) and both timers have been
decremented twice — at step 8 and again at step 9.  Under the claim the
counter would have been reset at step 8 and the timers decremented
exactly once, leaving delay = sound = 9. -/
theorem timer_counter_never_reset :
    (Machine.stepN 9 awaitingMachine).map
      (fun ma => (ma.cpu.registers.delay, ma.cpu.registers.sound,
                  ma.clocks_since_delay)) = some (8, 8, 9) := by
  decide

/-! Claim C2: the key-wait opcode.  The committed
Instruction::wait_for_key handler is a stub: it advances pc by 2 and
never sets the wait_for_key latch, so the CPU is not halted. -/

/-- A machine whose program is the single opcode 0xF30A (wait for key
into v3) at pc = 0. -/
def keyWaitMachine : Machine :=
  { cpu := Cpu.new (fun _ => 0),
    memory := { Memory.new with
      data := fun j => if j = 0 then 0xF3 else if j = 1 then 0x0A else 0 },
    clocks_since_delay := 0 }

/-- Claim C2, evaluated on the code: executing opcode 0xF30A leaves the
wait_for_key latch clear (the claim says it becomes some 3) and advances
pc to 2 — the CPU keeps running instead of halting. -/
theorem wait_for_key_opcode_is_stub :
    (keyWaitMachine.step).map
      (fun ma => (ma.cpu.registers.wait_for_key, ma.cpu.registers.pc)) =
      some (none, 2) := by
  decide

/-! Claim C3: the add-register carry flag. -/

/-- Registers with v[15] = 255 and v[0] = 255. -/
def rAddClobber : Registers :=
  { Registers.new (fun _ => 0) with
    v := fun j => if j = 15 then 255 else if j = 0 then 255 else 0 }

/-- Counterexample to claim C3 as stated: with reg1 = 0xF and reg2 = 0
(opcode payload 0xF04) and v[15] = v[0] = 255, the sum 510 exceeds 255,
yet after execution v[0xF] holds 254 (the wrapped sum overwrote the carry
flag), not 1. -/
theorem add_register_flag_clobbered :
    ∃ r' m', Instruction.add_register rAddClobber Memory.new 0xF04 =
        some (r', m') ∧
      rAddClobber.v 15 + rAddClobber.v 0 > 255 ∧
      r'.v 0xF = 254 ∧ r'.v 0xF ≠ 1 :=
  ⟨_, _, rfl, by decide, by decide, by decide⟩

/-- Claim C3 (amended): for reg1 ≠ 0xF (when reg1 = 0xF the final write
of the sum clobbers the flag), the add-register sub-op leaves v[reg1] =
(a + b) mod 256, v[0xF] = 1 exactly when a + b > 255, and advances pc by
2 (16-bit wrapping). -/
theorem add_register_spec (r : Registers) (m : Memory) (data reg1 reg2 : Nat)
    (h1 : reg1 = register_from_data data)
    (h2 : reg2 = register_two_from_data data)
    (hne : reg1 ≠ 0xF) (ha : r.v reg1 < 256) (hb : r.v reg2 < 256) :
    ∃ r', Instruction.add_register r m data = some (r', m) ∧
      r'.v reg1 = (r.v reg1 + r.v reg2) % 256 ∧
      r'.v 0xF = (if r.v reg1 + r.v reg2 > 255 then 1 else 0) ∧
      r'.pc = (r.pc + 2) % 65536 := by
  subst h1
  subst h2
  unfold Instruction.add_register
  refine ⟨_, rfl, ?_, ?_, ?_⟩
  · simp [Registers.setV, Registers.inc_pc]
  · have h15 : (15 : Nat) ≠ register_from_data data := fun hc => hne hc.symm
    simp only [Registers.inc_pc, Registers.setV]
    rw [if_neg h15]
    split_ifs <;> omega
  · simp [Registers.setV, Registers.inc_pc]

/-- Registers with v[1] = 200 and v[2] = 100. -/
def rAddWitness : Registers :=
  { Registers.new (fun _ => 0) with
    v := fun j => if j = 1 then 200 else if j = 2 then 100 else 0 }

/-- Witness for C3's amended theorem at reg1 = 1, reg2 = 2 (payload
0x124), with 200 + 100 carrying. -/
theorem add_register_spec_witness :
    ∃ r', Instruction.add_register rAddWitness Memory.new 0x124 =
        some (r', Memory.new) ∧
      r'.v 1 = (rAddWitness.v 1 + rAddWitness.v 2) % 256 ∧
      r'.v 0xF = (if rAddWitness.v 1 + rAddWitness.v 2 > 255 then 1 else 0) ∧
      r'.pc = (rAddWitness.pc + 2) % 65536 :=
  add_register_spec rAddWitness Memory.new 0x124 1 2 (by decide) (by decide)
    (by decide) (by decide) (by decide)

/-! Claim C4: call / return round trip. -/

/-- Dividing a bitwise and distributes over both operands (iterated
Nat.and_div_two). -/
theorem and_div_two_pow (a b : Nat) :
    ∀ k, (a &&& b) / 2 ^ k = (a / 2 ^ k) &&& (b / 2 ^ k) := by
  intro k
  induction k with
  | zero => simp
  | succ k ih =>
    rw [pow_succ, ← Nat.div_div_eq_div_mul, ih, Nat.and_div_two,
      Nat.div_div_eq_div_mul, Nat.div_div_eq_div_mul, ← pow_succ]

/-- Splitting a 16-bit value into its two bytes and reassembling them
big-endian is the identity. -/
theorem u16_bytes_roundtrip (V : Nat) (hV : V < 65536) :
    (((V &&& 0xFF00) >>> 8) <<< 8) ||| (V &&& 0xFF) = V := by
  have hlow : V &&& 0xFF = V % 256 := and_255_eq_mod V
  have hhigh : (V &&& 0xFF00) >>> 8 = V / 256 := by
    rw [Nat.shiftRight_eq_div_pow]
    have h8 : (2 : Nat) ^ 8 = 256 := by norm_num
    rw [h8, show (0xFF00 : Nat) = 0xFF00 from rfl]
    have := and_div_two_pow V 0xFF00 8
    rw [h8] at this
    rw [this]
    have hff : (0xFF00 : Nat) / 256 = 255 := by norm_num
    rw [hff, and_255_eq_mod]
    omega
  rw [hlow, hhigh, Nat.lor_comm, lor_shiftLeft8 _ _ (by omega)]
  omega

/-- Claim C4: executing call(addr) and then return restores pc to the
value immediately after the call instruction — (pc + 2) mod 2^16, the
value the call pushed — and restores the stack depth.  The hypothesis is
that the 256-byte call stack has room for the push (otherwise the Rust
indexing panics). -/
theorem call_ret_round_trip (r : Registers) (m : Memory) (addr : Nat)
    (hroom : r.stack_idx + 1 < 256) :
    ∃ r1, Instruction.call r m addr = some (r1, m) ∧
      r1.pc = addr ∧
      ∃ r2, Instruction.mcall_display_or_flow r1 m 0xEE = some (r2, m) ∧
        r2.pc = (r.pc + 2) % 65536 ∧ r2.stack_idx = r.stack_idx := by
  unfold Instruction.call Registers.stack_push16 INSTRUCTION_SIZE
  rw [if_pos hroom]
  refine ⟨_, rfl, rfl, ?_⟩
  unfold Instruction.mcall_display_or_flow Registers.stack_pop16
  rw [if_neg (by norm_num), if_pos rfl]
  dsimp only
  have hcond : 2 ≤ r.stack_idx + 2 ∧ r.stack_idx + 2 ≤ 256 := by omega
  rw [if_pos hcond]
  refine ⟨_, rfl, ?_, ?_⟩
  · dsimp only
    have hidx : r.stack_idx + 2 - 2 = r.stack_idx := by omega
    have hidx1 : r.stack_idx + 2 - 1 = r.stack_idx + 1 := by omega
    rw [hidx, hidx1, if_pos rfl, if_neg (by omega), if_pos rfl]
    exact u16_bytes_roundtrip _ (Nat.mod_lt _ (by norm_num))
  · show r.stack_idx + 2 - 2 = r.stack_idx
    omega

/-- Witness for C4: calling 0x300 from pc 0x222 on a fresh register file
and returning lands back at 0x224 with an empty stack. -/
theorem call_ret_round_trip_witness :
    ∃ r1, Instruction.call { Registers.new (fun _ => 0) with pc := 0x222 }
        Memory.new 0x300 = some (r1, Memory.new) ∧
      r1.pc = 0x300 ∧
      ∃ r2, Instruction.mcall_display_or_flow r1 Memory.new 0xEE =
          some (r2, Memory.new) ∧
        r2.pc = (({ Registers.new (fun _ => 0) with pc := 0x222 } :
            Registers).pc + 2) % 65536 ∧
        r2.stack_idx = ({ Registers.new (fun _ => 0) with pc := 0x222 } :
            Registers).stack_idx :=
  call_ret_round_trip { Registers.new (fun _ => 0) with pc := 0x222 }
    Memory.new 0x300 (by decide)

/-! Claim C5: the shift-left flag. -/

/-- Registers with v[2] = 0x80. -/
def rShlFlag : Registers :=
  { Registers.new (fun _ => 0) with v := fun j => if j = 2 then 0x80 else 0 }

/-- Claim C5, evaluated on the code: shifting v[2] = 0x80 left (payload
0x200, reg1 = 2) doubles the register modulo 256 (0x80 * 2 mod 256 = 0)
but stores v[0xF] = v[2] & 0x80 = 128, not the normalized bit value 1
that the claim (and the CHIP-8 reference, and the sibling shr handler)
requires. -/
theorem shl_register_flag_not_bit :
    ∃ r', Instruction.shl_register rShlFlag Memory.new 0x200 =
        some (r', Memory.new) ∧
      r'.v 2 = 0 ∧ r'.v 0xF = 128 ∧ r'.v 0xF ≠ 1 ∧ r'.pc = 2 :=
  ⟨_, rfl, by decide, by decide, by decide, by decide⟩

/-! Claim C9: timers are decremented only in the timer-tick branch of
Machine::step, never by instruction execution (apart from the explicit
timer-write opcodes 0xFX15 / 0xFX18, which set rather than count down),
and only when nonzero. -/

/-- stack_pop16 leaves the timers alone. -/
theorem stack_pop16_timers (r : Registers) (pr : Registers × Nat)
    (h : r.stack_pop16 = some pr) :
    pr.1.delay = r.delay ∧ pr.1.sound = r.sound := by
  unfold Registers.stack_pop16 at h
  split_ifs at h
  simp only [Option.some.injEq] at h
  rw [← h]
  exact ⟨rfl, rfl⟩

/-- stack_push16 leaves the timers alone. -/
theorem stack_push16_timers (r : Registers) (value : Nat) (r1 : Registers)
    (h : r.stack_push16 value = some r1) :
    r1.delay = r.delay ∧ r1.sound = r.sound := by
  unfold Registers.stack_push16 at h
  split_ifs at h
  simp only [Option.some.injEq] at h
  rw [← h]
  exact ⟨rfl, rfl⟩

/-- The reg_dump loop leaves the timers alone. -/
theorem regDumpAux_timers :
    ∀ (k j : Nat) (r : Registers) (m : Memory) (out : Registers × Memory),
      regDumpAux k j r m = some out →
      out.1.delay = r.delay ∧ out.1.sound = r.sound := by
  intro k
  induction k with
  | zero =>
    intro j r m out h
    simp only [regDumpAux, Option.some.injEq] at h
    rw [← h]
    exact ⟨rfl, rfl⟩
  | succ k ih =>
    intro j r m out h
    unfold regDumpAux at h
    cases hset : m.set r.i (r.v j) with
    | none => rw [hset] at h; simp at h
    | some m1 =>
      rw [hset] at h
      have h' : regDumpAux k (j + 1) { r with i := (r.i + 1) % 65536 } m1 =
          some out := h
      exact ih (j + 1) { r with i := (r.i + 1) % 65536 } m1 out h'

/-- The reg_load loop leaves the timers alone. -/
theorem regLoadAux_timers :
    ∀ (k j : Nat) (r : Registers) (m : Memory) (out : Registers × Memory),
      regLoadAux k j r m = some out →
      out.1.delay = r.delay ∧ out.1.sound = r.sound := by
  intro k
  induction k with
  | zero =>
    intro j r m out h
    simp only [regLoadAux, Option.some.injEq] at h
    rw [← h]
    exact ⟨rfl, rfl⟩
  | succ k ih =>
    intro j r m out h
    unfold regLoadAux at h
    cases hget : m.get r.i with
    | none => rw [hget] at h; simp at h
    | some val =>
      rw [hget] at h
      have h' : regLoadAux k (j + 1)
          { r.setV j val with i := (r.i + 1) % 65536 } m = some out := h
      exact ih (j + 1) { r.setV j val with i := (r.i + 1) % 65536 } m out h'

set_option maxHeartbeats 1600000 in
/-- Instruction::load_or_store preserves the delay timer unless the
selector is 0x15 (set_delay), and the sound timer unless it is 0x18
(set_sound). -/
theorem load_or_store_timers (r : Registers) (m : Memory) (data : Nat)
    (r' : Registers) (m' : Memory)
    (h : Instruction.load_or_store r m data = some (r', m')) :
    ((data &&& 0x00FF) ≠ 0x15 → r'.delay = r.delay) ∧
    ((data &&& 0x00FF) ≠ 0x18 → r'.sound = r.sound) := by
  unfold Instruction.load_or_store at h
  dsimp only at h
  split_ifs at h with h66 h07 h0A h15 h18 h1E h29 h33 h55 h65
  · unfold Instruction.get_delay at h
    try dsimp only at h
    injection h with hp
    injection hp with h1 h2
    subst h1
    exact ⟨fun _ => rfl, fun _ => rfl⟩
  · unfold Instruction.wait_for_key at h
    try dsimp only at h
    injection h with hp
    injection hp with h1 h2
    subst h1
    exact ⟨fun _ => rfl, fun _ => rfl⟩
  · unfold Instruction.set_delay at h
    try dsimp only at h
    injection h with hp
    injection hp with h1 h2
    subst h1
    exact ⟨fun hne => absurd h15 hne, fun _ => rfl⟩
  · unfold Instruction.set_sound at h
    try dsimp only at h
    injection h with hp
    injection hp with h1 h2
    subst h1
    exact ⟨fun _ => rfl, fun hne => absurd h18 hne⟩
  · unfold Instruction.add_vx_i at h
    try dsimp only at h
    injection h with hp
    injection hp with h1 h2
    subst h1
    exact ⟨fun _ => rfl, fun _ => rfl⟩
  · unfold Instruction.set_i_sprite_addr at h
    try dsimp only at h
    injection h with hp
    injection hp with h1 h2
    subst h1
    exact ⟨fun _ => rfl, fun _ => rfl⟩
  · -- 0x33 bcd_vx
    unfold Instruction.bcd_vx at h
    dsimp only at h
    cases hs1 : m.set ((r.i + 2) % 65536) (r.v (register_from_data data) % 10) with
    | none => rw [hs1] at h; exact absurd h (by simp)
    | some m1 =>
      rw [hs1] at h
      dsimp only at h
      cases hs2 : m1.set ((r.i + 1) % 65536)
          (r.v (register_from_data data) / 10 % 10) with
      | none => rw [hs2] at h; exact absurd h (by simp)
      | some m2 =>
        rw [hs2] at h
        dsimp only at h
        cases hs3 : m2.set r.i (r.v (register_from_data data) / 10 / 10 % 10) with
        | none => rw [hs3] at h; exact absurd h (by simp)
        | some m3 =>
          rw [hs3] at h
          injection h with hp
          injection hp with h1 h2
          subst h1
          exact ⟨fun _ => rfl, fun _ => rfl⟩
  · -- 0x55 reg_dump
    unfold Instruction.reg_dump at h
    dsimp only at h
    cases hloop : regDumpAux (register_from_data data + 1) 0 r m with
    | none => rw [hloop] at h; exact absurd h (by simp)
    | some out =>
      rw [hloop] at h
      obtain ⟨rd, md⟩ := out
      injection h with hp
      injection hp with h1 h2
      subst h1
      obtain ⟨hd, hs⟩ := regDumpAux_timers _ _ _ _ _ hloop
      exact ⟨fun _ => hd, fun _ => hs⟩
  · -- 0x65 reg_load
    unfold Instruction.reg_load at h
    dsimp only at h
    cases hloop : regLoadAux (register_from_data data + 1) 0 r m with
    | none => rw [hloop] at h; exact absurd h (by simp)
    | some out =>
      rw [hloop] at h
      obtain ⟨rd, md⟩ := out
      injection h with hp
      injection hp with h1 h2
      subst h1
      obtain ⟨hd, hs⟩ := regLoadAux_timers _ _ _ _ _ hloop
      exact ⟨fun _ => hd, fun _ => hs⟩

set_option maxHeartbeats 1600000 in
/-- Instruction::math_or_bitop leaves the timers alone. -/
theorem math_or_bitop_timers (r : Registers) (m : Memory) (data : Nat)
    (r' : Registers) (m' : Memory)
    (h : Instruction.math_or_bitop r m data = some (r', m')) :
    r'.delay = r.delay ∧ r'.sound = r.sound := by
  unfold Instruction.math_or_bitop at h
  dsimp only at h
  split_ifs at h <;>
    first
    | (unfold Instruction.mv_register at h
       try dsimp only at h
       injection h with hp
       injection hp with h1 h2
       subst h1
       exact ⟨rfl, rfl⟩)
    | (unfold Instruction.or_register at h
       try dsimp only at h
       injection h with hp
       injection hp with h1 h2
       subst h1
       exact ⟨rfl, rfl⟩)
    | (unfold Instruction.and_register at h
       try dsimp only at h
       injection h with hp
       injection hp with h1 h2
       subst h1
       exact ⟨rfl, rfl⟩)
    | (unfold Instruction.xor_register at h
       try dsimp only at h
       injection h with hp
       injection hp with h1 h2
       subst h1
       exact ⟨rfl, rfl⟩)
    | (unfold Instruction.add_register at h
       try dsimp only at h
       injection h with hp
       injection hp with h1 h2
       subst h1
       exact ⟨rfl, rfl⟩)
    | (unfold Instruction.sub_register at h
       try dsimp only at h
       injection h with hp
       injection hp with h1 h2
       subst h1
       exact ⟨rfl, rfl⟩)
    | (unfold Instruction.shr_register at h
       try dsimp only at h
       injection h with hp
       injection hp with h1 h2
       subst h1
       exact ⟨rfl, rfl⟩)
    | (unfold Instruction.rev_sub_register at h
       try dsimp only at h
       injection h with hp
       injection hp with h1 h2
       subst h1
       exact ⟨rfl, rfl⟩)
    | (unfold Instruction.shl_register at h
       try dsimp only at h
       injection h with hp
       injection hp with h1 h2
       subst h1
       exact ⟨rfl, rfl⟩)
    | exact absurd h (by simp)

set_option maxHeartbeats 1600000 in
/-- A full CPU step preserves the delay timer unless the fetched opcode is
0xFX15, and the sound timer unless it is 0xFX18. -/
theorem cpu_step_timers (r : Registers) (m : Memory) (r' : Registers)
    (m' : Memory) (h : Cpu.step r m = some (r', m')) (op : Nat)
    (hop : m.get16 r.pc = some op) :
    (¬((op &&& 0xF000) >>> 12 = 15 ∧ (op &&& 0x0FFF) &&& 0x00FF = 0x15) →
      r'.delay = r.delay) ∧
    (¬((op &&& 0xF000) >>> 12 = 15 ∧ (op &&& 0x0FFF) &&& 0x00FF = 0x18) →
      r'.sound = r.sound) := by
  have hh : execMain ((op &&& 0xF000) >>> 12) r m (op &&& 0x0FFF) =
      some (r', m') := by
    rw [← h]
    unfold Cpu.step
    rw [hop]
  clear h
  rename' hh => h
  unfold execMain at h
  by_cases hc0 : (op &&& 0xF000) >>> 12 = 0
  · rw [if_pos hc0] at h
    unfold Instruction.mcall_display_or_flow at h
    split_ifs at h
    · injection h with hp
      injection hp with hr hm
      subst hr
      exact ⟨fun _ => rfl, fun _ => rfl⟩
    · cases hpop : r.stack_pop16 with
      | none => rw [hpop] at h; exact absurd h (by simp)
      | some pr =>
        rw [hpop] at h
        obtain ⟨rp, pcv⟩ := pr
        injection h with hp
        injection hp with hr hm
        subst hr
        obtain ⟨hd, hs⟩ := stack_pop16_timers r (rp, pcv) hpop
        exact ⟨fun _ => hd, fun _ => hs⟩
  rw [if_neg hc0] at h
  by_cases hc1 : (op &&& 0xF000) >>> 12 = 1
  · rw [if_pos hc1] at h
    try unfold Instruction.goto at h
    try dsimp only at h
    injection h with hp
    injection hp with hr hm
    subst hr
    exact ⟨fun _ => rfl, fun _ => rfl⟩
  rw [if_neg hc1] at h
  by_cases hc2 : (op &&& 0xF000) >>> 12 = 2
  · rw [if_pos hc2] at h
    unfold Instruction.call at h
    cases hpush : r.stack_push16 ((r.pc + INSTRUCTION_SIZE) % 65536) with
    | none => rw [hpush] at h; exact absurd h (by simp)
    | some r1 =>
      rw [hpush] at h
      injection h with hp
      injection hp with hr hm
      subst hr
      obtain ⟨hd, hs⟩ := stack_push16_timers r _ r1 hpush
      exact ⟨fun _ => hd, fun _ => hs⟩
  rw [if_neg hc2] at h
  by_cases hc3 : (op &&& 0xF000) >>> 12 = 3
  · rw [if_pos hc3] at h
    try unfold Instruction.reg_equal at h
    try dsimp only at h
    injection h with hp
    injection hp with hr hm
    subst hr
    exact ⟨fun _ => rfl, fun _ => rfl⟩
  rw [if_neg hc3] at h
  by_cases hc4 : (op &&& 0xF000) >>> 12 = 4
  · rw [if_pos hc4] at h
    try unfold Instruction.reg_not_equal at h
    try dsimp only at h
    injection h with hp
    injection hp with hr hm
    subst hr
    exact ⟨fun _ => rfl, fun _ => rfl⟩
  rw [if_neg hc4] at h
  by_cases hc5 : (op &&& 0xF000) >>> 12 = 5
  · rw [if_pos hc5] at h
    try unfold Instruction.two_reg_equal at h
    try dsimp only at h
    injection h with hp
    injection hp with hr hm
    subst hr
    exact ⟨fun _ => rfl, fun _ => rfl⟩
  rw [if_neg hc5] at h
  by_cases hc6 : (op &&& 0xF000) >>> 12 = 6
  · rw [if_pos hc6] at h
    try unfold Instruction.load_immediate at h
    try dsimp only at h
    injection h with hp
    injection hp with hr hm
    subst hr
    exact ⟨fun _ => rfl, fun _ => rfl⟩
  rw [if_neg hc6] at h
  by_cases hc7 : (op &&& 0xF000) >>> 12 = 7
  · rw [if_pos hc7] at h
    try unfold Instruction.add_immediate at h
    try dsimp only at h
    injection h with hp
    injection hp with hr hm
    subst hr
    exact ⟨fun _ => rfl, fun _ => rfl⟩
  rw [if_neg hc7] at h
  by_cases hc8 : (op &&& 0xF000) >>> 12 = 8
  · rw [if_pos hc8] at h
    obtain ⟨hd, hs⟩ := math_or_bitop_timers r m _ r' m' h
    exact ⟨fun _ => hd, fun _ => hs⟩
  rw [if_neg hc8] at h
  by_cases hc9 : (op &&& 0xF000) >>> 12 = 9
  · rw [if_pos hc9] at h
    try unfold Instruction.two_registers_not_equal at h
    try dsimp only at h
    injection h with hp
    injection hp with hr hm
    subst hr
    exact ⟨fun _ => rfl, fun _ => rfl⟩
  rw [if_neg hc9] at h
  by_cases hc10 : (op &&& 0xF000) >>> 12 = 10
  · rw [if_pos hc10] at h
    try unfold Instruction.set_i at h
    try dsimp only at h
    injection h with hp
    injection hp with hr hm
    subst hr
    exact ⟨fun _ => rfl, fun _ => rfl⟩
  rw [if_neg hc10] at h
  by_cases hc11 : (op &&& 0xF000) >>> 12 = 11
  · rw [if_pos hc11] at h
    try unfold Instruction.jump_immediate_plus_register at h
    try dsimp only at h
    injection h with hp
    injection hp with hr hm
    subst hr
    exact ⟨fun _ => rfl, fun _ => rfl⟩
  rw [if_neg hc11] at h
  by_cases hc12 : (op &&& 0xF000) >>> 12 = 12
  · rw [if_pos hc12] at h
    try unfold Instruction.masked_random at h
    try dsimp only at h
    injection h with hp
    injection hp with hr hm
    subst hr
    exact ⟨fun _ => rfl, fun _ => rfl⟩
  rw [if_neg hc12] at h
  by_cases hc13 : (op &&& 0xF000) >>> 12 = 13
  · rw [if_pos hc13] at h
    unfold Instruction.draw_sprite at h
    try dsimp only at h
    cases hdraw : m.draw_sprite (r.v (register_from_data (op &&& 0x0FFF)))
        (r.v (register_two_from_data (op &&& 0x0FFF)))
        (op &&& 0x0FFF &&& 0x000F) r.i with
    | none => rw [hdraw] at h; exact absurd h (by simp)
    | some pr =>
      rw [hdraw] at h
      obtain ⟨md, flag⟩ := pr
      injection h with hp
      injection hp with hr hm
      subst hr
      exact ⟨fun _ => rfl, fun _ => rfl⟩
  rw [if_neg hc13] at h
  by_cases hc14 : (op &&& 0xF000) >>> 12 = 14
  · rw [if_pos hc14] at h
    try unfold Instruction.key_op at h
    try dsimp only at h
    injection h with hp
    injection hp with hr hm
    subst hr
    exact ⟨fun _ => rfl, fun _ => rfl⟩
  rw [if_neg hc14] at h
  by_cases hk : (op &&& 0xF000) >>> 12 = 15
  · rw [if_pos hk] at h
    obtain ⟨hd, hs⟩ := load_or_store_timers r m _ r' m' h
    exact ⟨fun hne => hd fun hmm2 => hne ⟨hk, hmm2⟩,
           fun hne => hs fun hmm2 => hne ⟨hk, hmm2⟩⟩
  rw [if_neg hk] at h
  exact absurd h (by simp)

/-- The timer phase's effect on the delay timer. -/
theorem timerPhase_delay (ma : Machine) :
    ma.timerPhase.cpu.registers.delay =
      if CLOCKS_PER_DELAY ≤ ma.clocks_since_delay + 1 then
        (if 0 < ma.cpu.registers.delay then ma.cpu.registers.delay - 1
         else ma.cpu.registers.delay)
      else ma.cpu.registers.delay := by
  unfold Machine.timerPhase
  by_cases ht : CLOCKS_PER_DELAY ≤ ma.clocks_since_delay + 1
  · by_cases hs : 0 < ma.cpu.registers.sound
    · by_cases hd : 0 < ma.cpu.registers.delay
      · simp [ht, hs, hd]
      · simp [ht, hs, hd]
    · by_cases hd : 0 < ma.cpu.registers.delay
      · simp [ht, hs, hd]
      · simp [ht, hs, hd]
  · simp [ht]

/-- The timer phase's effect on the sound timer. -/
theorem timerPhase_sound (ma : Machine) :
    ma.timerPhase.cpu.registers.sound =
      if CLOCKS_PER_DELAY ≤ ma.clocks_since_delay + 1 then
        (if 0 < ma.cpu.registers.sound then ma.cpu.registers.sound - 1
         else ma.cpu.registers.sound)
      else ma.cpu.registers.sound := by
  unfold Machine.timerPhase
  by_cases ht : CLOCKS_PER_DELAY ≤ ma.clocks_since_delay + 1
  · by_cases hs : 0 < ma.cpu.registers.sound
    · by_cases hd : 0 < ma.cpu.registers.delay
      · simp [ht, hs, hd]
      · simp [ht, hs, hd]
    · by_cases hd : 0 < ma.cpu.registers.delay
      · simp [ht, hs, hd]
      · simp [ht, hs, hd]
  · simp [ht]

/-- The instruction phase never changes the tick counter. -/
theorem instrPhase_clocks (ma ma1 : Machine) (h : ma.instrPhase = some ma1) :
    ma1.clocks_since_delay = ma.clocks_since_delay := by
  unfold Machine.instrPhase at h
  cases hw : ma.cpu.registers.wait_for_key with
  | none =>
    rw [hw] at h
    cases hcs : Cpu.step ma.cpu.registers ma.memory with
    | none => rw [hcs] at h; exact absurd h (by simp)
    | some pr =>
      rw [hcs] at h
      obtain ⟨r', m'⟩ := pr
      injection h with h1
      rw [← h1]
  | some k =>
    rw [hw] at h
    injection h with h1
    rw [← h1]

/-- Claim C9: in Machine::step, the delay and sound timers are decremented
only in the timer-tick branch (the conjuncts about timerPhase: a
decrement happens only on a tick, only by one, and only when the timer is
nonzero, so a zero timer stays zero and never wraps), and the instruction
phase never changes either timer unless the fetched opcode is the
explicit timer write 0xFX15 / 0xFX18 (which sets, rather than counts
down, the timer). -/
theorem timers_tick_only (ma ma1 : Machine)
    (h : ma.instrPhase = some ma1) :
    Machine.step ma = some ma1.timerPhase ∧
    (ma1.cpu.registers.delay = 0 → ma1.timerPhase.cpu.registers.delay = 0) ∧
    (ma1.cpu.registers.sound = 0 → ma1.timerPhase.cpu.registers.sound = 0) ∧
    (ma1.timerPhase.cpu.registers.delay = ma1.cpu.registers.delay ∨
      (0 < ma1.cpu.registers.delay ∧
       ma1.timerPhase.cpu.registers.delay = ma1.cpu.registers.delay - 1)) ∧
    (ma1.timerPhase.cpu.registers.sound = ma1.cpu.registers.sound ∨
      (0 < ma1.cpu.registers.sound ∧
       ma1.timerPhase.cpu.registers.sound = ma1.cpu.registers.sound - 1)) ∧
    (ma.clocks_since_delay + 1 < CLOCKS_PER_DELAY →
      ma1.timerPhase.cpu.registers.delay = ma1.cpu.registers.delay ∧
      ma1.timerPhase.cpu.registers.sound = ma1.cpu.registers.sound) ∧
    (∀ op, ma.memory.get16 ma.cpu.registers.pc = some op →
      (¬((op &&& 0xF000) >>> 12 = 15 ∧ (op &&& 0x0FFF) &&& 0x00FF = 0x15) →
        ma1.cpu.registers.delay = ma.cpu.registers.delay) ∧
      (¬((op &&& 0xF000) >>> 12 = 15 ∧ (op &&& 0x0FFF) &&& 0x00FF = 0x18) →
        ma1.cpu.registers.sound = ma.cpu.registers.sound)) := by
  have hclk := instrPhase_clocks ma ma1 h
  have hd := timerPhase_delay ma1
  have hs := timerPhase_sound ma1
  rw [hclk] at hd hs
  refine ⟨?_, ?_, ?_, ?_, ?_, ?_, ?_⟩
  · unfold Machine.step
    rw [h]
  · intro hz
    rw [hd, hz]
    split_ifs <;> omega
  · intro hz
    rw [hs, hz]
    split_ifs <;> omega
  · rw [hd]
    split_ifs with h1 h2
    · right; exact ⟨h2, rfl⟩
    · left; rfl
    · left; rfl
  · rw [hs]
    split_ifs with h1 h2
    · right; exact ⟨h2, rfl⟩
    · left; rfl
    · left; rfl
  · intro hlt
    rw [hd, hs]
    rw [if_neg (by omega), if_neg (by omega)]
    exact ⟨rfl, rfl⟩
  · intro op hop
    unfold Machine.instrPhase at h
    cases hw : ma.cpu.registers.wait_for_key with
    | none =>
      rw [hw] at h
      cases hcs : Cpu.step ma.cpu.registers ma.memory with
      | none => rw [hcs] at h; exact absurd h (by simp)
      | some pr =>
        rw [hcs] at h
        obtain ⟨r', m'⟩ := pr
        injection h with h1
        have hr1 : ma1.cpu.registers = r' := by rw [← h1]
        rw [hr1]
        exact cpu_step_timers ma.cpu.registers ma.memory r' m' hcs op hop
    | some k =>
      rw [hw] at h
      injection h with h1
      rw [← h1]
      exact ⟨fun _ => rfl, fun _ => rfl⟩

/-- A machine awaiting a key with zero timers, used to instantiate the
timer theorem. -/
def awaitingKeyZeroMachine : Machine :=
  { cpu := ⟨{ Registers.new (fun _ => 0) with wait_for_key := some 1 }⟩,
    memory := Memory.new, clocks_since_delay := 0 }

/-- Witness for C9: a machine awaiting a key with zero timers (so the
instruction phase trivially succeeds and all conjuncts evaluate). -/
theorem timers_tick_only_witness :
    awaitingKeyZeroMachine.instrPhase = some awaitingKeyZeroMachine ∧
    (Machine.step awaitingKeyZeroMachine =
        some awaitingKeyZeroMachine.timerPhase ∧
      (awaitingKeyZeroMachine.cpu.registers.delay = 0 →
        awaitingKeyZeroMachine.timerPhase.cpu.registers.delay = 0) ∧
      (awaitingKeyZeroMachine.cpu.registers.sound = 0 →
        awaitingKeyZeroMachine.timerPhase.cpu.registers.sound = 0) ∧
      (awaitingKeyZeroMachine.timerPhase.cpu.registers.delay =
          awaitingKeyZeroMachine.cpu.registers.delay ∨
        (0 < awaitingKeyZeroMachine.cpu.registers.delay ∧
         awaitingKeyZeroMachine.timerPhase.cpu.registers.delay =
           awaitingKeyZeroMachine.cpu.registers.delay - 1)) ∧
      (awaitingKeyZeroMachine.timerPhase.cpu.registers.sound =
          awaitingKeyZeroMachine.cpu.registers.sound ∨
        (0 < awaitingKeyZeroMachine.cpu.registers.sound ∧
         awaitingKeyZeroMachine.timerPhase.cpu.registers.sound =
           awaitingKeyZeroMachine.cpu.registers.sound - 1)) ∧
      (awaitingKeyZeroMachine.clocks_since_delay + 1 < CLOCKS_PER_DELAY →
        awaitingKeyZeroMachine.timerPhase.cpu.registers.delay =
          awaitingKeyZeroMachine.cpu.registers.delay ∧
        awaitingKeyZeroMachine.timerPhase.cpu.registers.sound =
          awaitingKeyZeroMachine.cpu.registers.sound) ∧
      (∀ op, awaitingKeyZeroMachine.memory.get16
          awaitingKeyZeroMachine.cpu.registers.pc = some op →
        (¬((op &&& 0xF000) >>> 12 = 15 ∧
            (op &&& 0x0FFF) &&& 0x00FF = 0x15) →
          awaitingKeyZeroMachine.cpu.registers.delay =
            awaitingKeyZeroMachine.cpu.registers.delay) ∧
        (¬((op &&& 0xF000) >>> 12 = 15 ∧
            (op &&& 0x0FFF) &&& 0x00FF = 0x18) →
          awaitingKeyZeroMachine.cpu.registers.sound =
            awaitingKeyZeroMachine.cpu.registers.sound))) :=
  ⟨rfl, timers_tick_only awaitingKeyZeroMachine awaitingKeyZeroMachine rfl⟩

end Chip9

